import Mathlib

/-!
Verification of the LTrail dashboard core: the adaptive trace poller
(`frontend/src/hooks/useTracePolling.jsx`) and the flow-graph builder
(`frontend/src/components/TraceViewer.jsx`), together with the trace-list
rendering (`frontend/src/components/TraceList.jsx`) and the trace-detail
fetch routine of the viewer.  Each JavaScript function of the core is
embedded as an executable Lean definition, and the theorems below settle
the specified properties of those definitions.
-/

namespace LTrail

/-!
### Adaptive poller, sequential model

`useTracePolling` keeps three refs: `lastTraceCountRef` (starts at `0`),
`consecutiveNoChangeRef` (starts at `0`) and `intervalRef` (the armed
`setInterval` handle, or `null`).  A poll invocation captures
`previousCount = lastTraceCountRef.current`, awaits `fetchTraces()`,
measures `currentCount`, and then runs the block embedded below as
`pollStep`.  `PollState.period` records the period of the armed timer and
`intervalArmed` mirrors the truthiness of `intervalRef.current`; this model
covers the sequential runs (one completed invocation at a time) that the
interval-adaptation properties speak about.
-/

structure PollState where
  lastTraceCount : Nat
  consecutiveNoChange : Nat
  intervalArmed : Bool
  period : ℚ
deriving Repr, DecidableEq

/-- Embedding of `Math.min(30000, 10000 * (1 + consecutiveNoChangeRef.current / 3))`
from `useTracePolling.jsx`; JavaScript number division is modelled exactly
over `ℚ` (all values involved are exactly representable comparisons aside,
and the spec states the same formula). -/
def backoffInterval (c : Nat) : ℚ := min 30000 (10000 * (1 + (c : ℚ) / 3))

/-- Embedding of the body of `poll` after `await fetchTraces()`: compare
`currentCount` against the captured previous count, either increment the
stability counter (rearming at `backoffInterval` once it passes 3 and
`intervalRef.current` is set) or reset it to 0 and rearm at 10000 ms, and
finally store `currentCount` into `lastTraceCountRef`. -/
def pollStep (currentCount : Nat) (s : PollState) : PollState :=
  if currentCount = s.lastTraceCount then
    let c := s.consecutiveNoChange + 1
    { lastTraceCount := currentCount
      consecutiveNoChange := c
      intervalArmed := s.intervalArmed
      period := if 3 < c ∧ s.intervalArmed = true then backoffInterval c else s.period }
  else
    { lastTraceCount := currentCount
      consecutiveNoChange := 0
      intervalArmed := s.intervalArmed
      period := if s.intervalArmed = true then 10000 else s.period }

/-- Poller state right after the effect body of `useTracePolling` has run
with `enabled = true`: both counter refs are `0` and
`intervalRef.current = setInterval(poll, 10000)` has armed a 10000 ms
timer. -/
def initState : PollState :=
  { lastTraceCount := 0, consecutiveNoChange := 0, intervalArmed := true, period := 10000 }

/-- Poller states reachable from `initState` by completed poll invocations. -/
inductive Reachable : PollState → Prop
  | init : Reachable initState
  | step (currentCount : Nat) {s : PollState} :
      Reachable s → Reachable (pollStep currentCount s)

/-- Invariant tying the armed period to the stability counter. -/
def PollInv (s : PollState) : Prop :=
  s.intervalArmed = true ∧
  s.period = if 3 < s.consecutiveNoChange then backoffInterval s.consecutiveNoChange else 10000

/-- Run of consecutive no-change invocations (each fetch leaves the measured
count exactly as before) starting from `s`. -/
def stableRun (s : PollState) : Nat → PollState
  | 0 => s
  | n + 1 => pollStep (stableRun s n).lastTraceCount (stableRun s n)

theorem pollInv_init : PollInv initState := by
  constructor
  · rfl
  · simp [initState]

theorem pollInv_step (c : Nat) {s : PollState} (h : PollInv s) : PollInv (pollStep c s) := by
  obtain ⟨harm, hper⟩ := h
  by_cases hc : c = s.lastTraceCount
  · refine ⟨by simp [pollStep, hc, harm], ?_⟩
    by_cases h3 : 3 < s.consecutiveNoChange + 1
    · simp [pollStep, hc, harm, h3]
    · have h3' : ¬ 3 < s.consecutiveNoChange := by omega
      simp [pollStep, hc, harm, h3, hper, h3']
  · refine ⟨by simp [pollStep, hc, harm], ?_⟩
    simp [pollStep, hc, harm]

theorem reachable_pollInv {s : PollState} (h : Reachable s) : PollInv s := by
  induction h with
  | init => exact pollInv_init
  | step c _ ih => exact pollInv_step c ih

theorem backoffInterval_le_30000 (c : Nat) : backoffInterval c ≤ 30000 :=
  min_le_left _ _

theorem le_backoffInterval (c : Nat) : (10000 : ℚ) ≤ backoffInterval c := by
  refine le_min (by norm_num) ?_
  have hc : (0 : ℚ) ≤ (c : ℚ) / 3 := by positivity
  nlinarith

theorem backoffInterval_mono {c d : Nat} (h : c ≤ d) :
    backoffInterval c ≤ backoffInterval d := by
  unfold backoffInterval
  have hcd : (c : ℚ) ≤ (d : ℚ) := by exact_mod_cast h
  refine min_le_min le_rfl ?_
  nlinarith

theorem period_le_30000 {s : PollState} (h : PollInv s) : s.period ≤ 30000 := by
  obtain ⟨-, hper⟩ := h
  rw [hper]
  split
  · exact backoffInterval_le_30000 _
  · norm_num

theorem period_mono_noChange {s : PollState} (h : PollInv s) (c : Nat)
    (hc : c = s.lastTraceCount) : s.period ≤ (pollStep c s).period := by
  obtain ⟨harm, hper⟩ := h
  by_cases h3 : 3 < s.consecutiveNoChange + 1
  · have hnew : (pollStep c s).period = backoffInterval (s.consecutiveNoChange + 1) := by
      simp [pollStep, hc, harm, h3]
    rw [hnew, hper]
    split
    · exact backoffInterval_mono (by omega)
    · exact le_backoffInterval _
  · have hnew : (pollStep c s).period = s.period := by
      simp [pollStep, hc, harm, h3]
    rw [hnew]

theorem reachable_stableRun {s : PollState} (hs : Reachable s) (n : Nat) :
    Reachable (stableRun s n) := by
  induction n with
  | zero => exact hs
  | succ n ih => exact Reachable.step _ ih

/-- C1: on a run of the poller, a no-change invocation (measured count equal
to the previous invocation's) increments the stability counter by 1; whenever
the incremented counter exceeds 3 the timer is rearmed at
`min(30000, 10000 * (1 + counter / 3))` ms; and over any sequence of
consecutive no-change invocations the armed period is non-decreasing and
never exceeds 30000 ms. -/
theorem poll_noChange_backoff (s : PollState) (hs : Reachable s)
    (c : Nat) (hc : c = s.lastTraceCount) :
    (pollStep c s).consecutiveNoChange = s.consecutiveNoChange + 1 ∧
    (3 < (pollStep c s).consecutiveNoChange →
      (pollStep c s).period =
        min 30000 (10000 * (1 + ((pollStep c s).consecutiveNoChange : ℚ) / 3))) ∧
    s.period ≤ (pollStep c s).period ∧
    (pollStep c s).period ≤ 30000 ∧
    (∀ n : Nat,
      (stableRun s n).period ≤ (stableRun s (n + 1)).period ∧
      (stableRun s n).period ≤ 30000) := by
  have hinv := reachable_pollInv hs
  have harm := hinv.1
  have hcount : (pollStep c s).consecutiveNoChange = s.consecutiveNoChange + 1 := by
    simp [pollStep, hc, harm]
  refine ⟨hcount, ?_, period_mono_noChange hinv c hc, ?_, ?_⟩
  · intro h3
    rw [hcount] at h3
    simp [pollStep, hc, harm, h3, backoffInterval]
  · exact period_le_30000 (pollInv_step c hinv)
  · intro n
    have hr := reachable_stableRun hs n
    have hinvn := reachable_pollInv hr
    exact ⟨period_mono_noChange hinvn _ rfl, period_le_30000 hinvn⟩

theorem poll_noChange_backoff_witness :
    (pollStep 0 initState).consecutiveNoChange = initState.consecutiveNoChange + 1 ∧
    (pollStep 0 initState).period ≤ 30000 :=
  ⟨(poll_noChange_backoff initState Reachable.init 0 rfl).1,
   (poll_noChange_backoff initState Reachable.init 0 rfl).2.2.2.1⟩

/-- C2: an invocation whose measured count differs from the previous
invocation's resets the stability counter to 0 and (with the interval ref
armed, as it always is while the hook is active) rearms the timer at exactly
10000 ms, so the very next scheduled period is 10000 ms. -/
theorem poll_change_resets (s : PollState) (c : Nat)
    (hc : c ≠ s.lastTraceCount) (harm : s.intervalArmed = true) :
    (pollStep c s).consecutiveNoChange = 0 ∧
    (pollStep c s).period = 10000 ∧
    (pollStep c s).lastTraceCount = c := by
  refine ⟨by simp [pollStep, hc], by simp [pollStep, hc, harm], by simp [pollStep, hc]⟩

theorem poll_change_resets_witness :
    (pollStep 1 ⟨0, 5, true, 10000⟩).consecutiveNoChange = 0 ∧
    (pollStep 1 ⟨0, 5, true, 10000⟩).period = 10000 ∧
    (pollStep 1 ⟨0, 5, true, 10000⟩).lastTraceCount = 1 :=
  poll_change_resets ⟨0, 5, true, 10000⟩ 1 (by decide) rfl

/-!
### Flow graph builder

Embedding of `updateFlow` (and its helper `getNodeStyle`) from
`TraceViewer.jsx`.  A trace step carries the three fields `updateFlow`
reads; `status` is optional in the wire format and `step.status || 'success'`
also treats the empty string as absent (JavaScript falsiness).
-/

structure Step where
  name : String
  step_type : String
  status : Option String
deriving Repr, DecidableEq

/-- Embedding of `step.status || 'success'`. -/
def statusOf (step : Step) : String :=
  match step.status with
  | none => "success"
  | some s => if s = "" then "success" else s

/-- Embedding of the `nodeColor` assignment in `updateFlow`:
`'#10b981'` unless the status string is exactly `'error'`, `'warning'` or
`'partial'`. -/
def nodeColorOf (status : String) : String :=
  if status = "error" then "#ef4444"
  else if status = "warning" then "#f59e0b"
  else if status = "partial" then "#3b82f6"
  else "#10b981"

structure NodeStyle where
  background : String
  borderRadius : String
  border : String
  padding : String
  minWidth : String
  maxWidth : String
  color : String
  cursor : String
  fontSize : String
  fontWeight : Nat
  boxShadow : String
deriving Repr, DecidableEq

set_option linter.unusedVariables false in
/-- Embedding of `getNodeStyle(status, nodeColor, isSelected)` from
`TraceViewer.jsx` (the `status` argument is accepted but unused there,
exactly as in the source). -/
def getNodeStyle (status : String) (nodeColor : String) (isSelected : Bool) : NodeStyle :=
  { background := "linear-gradient(135deg, " ++ nodeColor ++ "15 0%, " ++ nodeColor ++ "08 100%)"
    borderRadius := "8px"
    border := "1.5px solid " ++ (if isSelected then "#818cf8" else nodeColor ++ "40")
    padding := "10px 12px"
    minWidth := "140px"
    maxWidth := "180px"
    color := "#e5e7eb"
    cursor := "grab"
    fontSize := "11px"
    fontWeight := 500
    boxShadow := if isSelected then "0 4px 12px rgba(129, 140, 248, 0.2)"
                 else "0 2px 8px rgba(0, 0, 0, 0.3)" }

structure NodeData where
  name : String
  step_type : String
deriving Repr, DecidableEq

structure Position where
  x : Nat
  y : Nat
deriving Repr, DecidableEq

structure FlowNode where
  id : String
  position : Position
  data : NodeData
  style : NodeStyle
  draggable : Bool
deriving Repr, DecidableEq

structure EdgeStyle where
  stroke : String
  strokeWidth : Nat
deriving Repr, DecidableEq

/-- Marker descriptor; `type` holds the ReactFlow `MarkerType.ArrowClosed`
constant, the string `"arrowclosed"`. -/
structure EdgeMarker where
  type : String
  width : Nat
  height : Nat
  color : String
deriving Repr, DecidableEq

structure FlowEdge where
  id : String
  source : String
  target : String
  type : String
  style : EdgeStyle
  markerEnd : EdgeMarker
deriving Repr, DecidableEq

/-- Node pushed by `updateFlow` for the step at position `index`
(`selectedStep === index` decides the highlight styling). -/
def mkFlowNode (selectedStep : Option Nat) (index : Nat) (step : Step) : FlowNode :=
  let status := statusOf step
  let nodeColor := nodeColorOf status
  { id := "step-" ++ toString index
    position := { x := 250, y := index * 100 + 50 }
    data := { name := step.name, step_type := step.step_type }
    style := getNodeStyle status nodeColor (selectedStep == some index)
    draggable := true }

/-- Edge pushed by `updateFlow` when `index > 0`; `step` is the step at
`index` (the edge's target), whose `nodeColor` is in scope where the edge is
built. -/
def mkFlowEdge (index : Nat) (step : Step) : FlowEdge :=
  let nodeColor := nodeColorOf (statusOf step)
  { id := "edge-" ++ toString index
    source := "step-" ++ toString (index - 1)
    target := "step-" ++ toString index
    type := "smoothstep"
    style := { stroke := nodeColor ++ "60", strokeWidth := 2 }
    markerEnd := { type := "arrowclosed", width := 18, height := 18, color := nodeColor ++ "60" } }

/-- Recursion over the step list mirroring the `steps.forEach((step, index))`
loop of `updateFlow`: every step contributes a node, and steps at
`index > 0` contribute an edge. -/
def updateFlowAux (selectedStep : Option Nat) : Nat → List Step → List FlowNode × List FlowEdge
  | _, [] => ([], [])
  | index, step :: rest =>
    let tail := updateFlowAux selectedStep (index + 1) rest
    (mkFlowNode selectedStep index step :: tail.1,
     (if 0 < index then [mkFlowEdge index step] else []) ++ tail.2)

/-- Embedding of `updateFlow(steps)` from `TraceViewer.jsx`, parameterised by
the `selectedStep` state it closes over; returns the `(newNodes, newEdges)`
pair handed to `setNodes` / `setEdges`. -/
def updateFlow (selectedStep : Option Nat) (steps : List Step) : List FlowNode × List FlowEdge :=
  updateFlowAux selectedStep 0 steps

theorem updateFlowAux_fst_length (sel : Option Nat) (steps : List Step) :
    ∀ i, ((updateFlowAux sel i steps).1).length = steps.length := by
  induction steps with
  | nil => intro i; rfl
  | cons s rest ih => intro i; simp [updateFlowAux, ih]

theorem updateFlowAux_snd_length (sel : Option Nat) (steps : List Step) :
    ∀ i, 1 ≤ i → ((updateFlowAux sel i steps).2).length = steps.length := by
  induction steps with
  | nil => intro i _; rfl
  | cons s rest ih =>
    intro i hi
    have h0 : 0 < i := hi
    simp [updateFlowAux, h0, ih (i + 1) (by omega)]

theorem updateFlowAux_fst_getElem? (sel : Option Nat) (steps : List Step) :
    ∀ i k, ((updateFlowAux sel i steps).1)[k]? = (steps[k]?).map (mkFlowNode sel (i + k)) := by
  induction steps with
  | nil => intro i k; simp [updateFlowAux]
  | cons s rest ih =>
    intro i k
    cases k with
    | zero => simp [updateFlowAux]
    | succ k =>
      have harith : i + 1 + k = i + (k + 1) := by omega
      simp [updateFlowAux, ih (i + 1) k, harith]

theorem updateFlowAux_snd_getElem? (sel : Option Nat) (steps : List Step) :
    ∀ i, 1 ≤ i →
      ∀ k, ((updateFlowAux sel i steps).2)[k]? = (steps[k]?).map (mkFlowEdge (i + k)) := by
  induction steps with
  | nil => intro i _ k; simp [updateFlowAux]
  | cons s rest ih =>
    intro i hi k
    have h0 : 0 < i := hi
    cases k with
    | zero => simp [updateFlowAux, h0]
    | succ k =>
      have harith : i + 1 + k = i + (k + 1) := by omega
      simp [updateFlowAux, h0, ih (i + 1) (by omega) k, harith]

theorem updateFlow_nodes_length (sel : Option Nat) (steps : List Step) :
    ((updateFlow sel steps).1).length = steps.length :=
  updateFlowAux_fst_length sel steps 0

theorem updateFlow_edges_length (sel : Option Nat) (steps : List Step) :
    ((updateFlow sel steps).2).length = steps.length - 1 := by
  cases steps with
  | nil => rfl
  | cons s rest =>
    show ((updateFlowAux sel 0 (s :: rest)).2).length = rest.length
    simp [updateFlowAux, updateFlowAux_snd_length sel rest 1 le_rfl]

theorem updateFlow_nodes_getElem? (sel : Option Nat) (steps : List Step) (k : Nat) :
    ((updateFlow sel steps).1)[k]? = (steps[k]?).map (mkFlowNode sel k) := by
  simpa using updateFlowAux_fst_getElem? sel steps 0 k

theorem updateFlow_edges_getElem? (sel : Option Nat) (steps : List Step) (k : Nat) :
    ((updateFlow sel steps).2)[k]? = (steps[k + 1]?).map (mkFlowEdge (k + 1)) := by
  cases steps with
  | nil => simp [updateFlow, updateFlowAux]
  | cons s rest =>
    have h1 : (updateFlow sel (s :: rest)).2 = (updateFlowAux sel 1 rest).2 := by
      simp [updateFlow, updateFlowAux]
    rw [h1, updateFlowAux_snd_getElem? sel rest 1 le_rfl k]
    have harith : 1 + k = k + 1 := by omega
    simp [harith]

theorem updateFlowAux_snd_sel_independent (sel sel2 : Option Nat) (steps : List Step) :
    ∀ i, (updateFlowAux sel i steps).2 = (updateFlowAux sel2 i steps).2 := by
  induction steps with
  | nil => intro i; rfl
  | cons s rest ih => intro i; simp [updateFlowAux, ih (i + 1)]

/-!
Decimal-representation helper: `step-{index}` identifiers with a positive
index never collide with `"step-0"`, because `Nat.repr` of a positive number
is never the string `"0"`.
-/

theorem toDigitsCore_shape (fuel : Nat) :
    ∀ (n : Nat) (acc : List Char), 1 ≤ fuel →
      ∃ pre : List Char,
        Nat.toDigitsCore 10 fuel n acc = pre ++ (Nat.digitChar (n % 10) :: acc) ∧
        (pre = [] → n / 10 = 0 ∨ fuel = 1) := by
  induction fuel with
  | zero => intro n acc h; omega
  | succ f ih =>
    intro n acc _
    by_cases h : n / 10 = 0
    · refine ⟨[], ?_, fun _ => Or.inl h⟩
      simp [Nat.toDigitsCore, h]
    · cases f with
      | zero =>
        refine ⟨[], ?_, fun _ => Or.inr rfl⟩
        simp [Nat.toDigitsCore, h]
      | succ f' =>
        obtain ⟨pre, hpre, -⟩ := ih (n / 10) (Nat.digitChar (n % 10) :: acc) (by omega)
        refine ⟨pre ++ [Nat.digitChar (n / 10 % 10)], ?_, by simp⟩
        have hgoal : Nat.toDigitsCore 10 (f' + 1 + 1) n acc
            = Nat.toDigitsCore 10 (f' + 1) (n / 10) (Nat.digitChar (n % 10) :: acc) := by
          conv_lhs => rw [Nat.toDigitsCore]
          simp [h]
        rw [hgoal, hpre]
        simp

theorem digitChar_eq_zero {m : Nat} (hm : m < 10) (h : Nat.digitChar m = '0') : m = 0 := by
  interval_cases m
  · rfl
  all_goals exact absurd h (by decide)

theorem nat_repr_eq_zero {n : Nat} (h : Nat.repr n = "0") : n = 0 := by
  obtain ⟨pre, hpre, hnil⟩ := toDigitsCore_shape (n + 1) n [] (by omega)
  have hd : Nat.toDigitsCore 10 (n + 1) n [] = ['0'] := congrArg String.data h
  rw [hpre] at hd
  cases pre with
  | cons a t => simp at hd
  | nil =>
    have hchar : Nat.digitChar (n % 10) = '0' := by simpa using hd
    have hlt : n < 10 := by
      rcases hnil rfl with h10 | h1
      · omega
      · omega
    have hmz : n % 10 = 0 := digitChar_eq_zero (by omega) hchar
    omega

theorem string_append_left_cancel {s t u : String} (h : s ++ t = s ++ u) : t = u := by
  obtain ⟨a⟩ := s
  obtain ⟨b⟩ := t
  obtain ⟨c⟩ := u
  have h' : a ++ b = a ++ c := congrArg String.data h
  exact congrArg String.mk (List.append_cancel_left h')

theorem step_id_pos_ne_step0 (n : Nat) : "step-" ++ Nat.repr (n + 1) ≠ "step-0" := by
  intro h
  have hsplit : ("step-0" : String) = "step-" ++ "0" := by decide
  rw [hsplit] at h
  have h0 : Nat.repr (n + 1) = "0" := string_append_left_cancel h
  exact absurd (nat_repr_eq_zero h0) (by omega)

/-- Step `{name:"A", status:"success"}` from the spec's example scenario. -/
def exStepA : Step := { name := "A", step_type := "llm", status := some "success" }

/-- Step `{name:"B", status:"error"}` from the spec's example scenario. -/
def exStepB : Step := { name := "B", step_type := "tool", status := some "error" }

/-- Step `{name:"C"}` (no status) from the spec's example scenario. -/
def exStepC : Step := { name := "C", step_type := "llm", status := none }

/-- The spec's example step sequence. -/
def exSteps : List Step := [exStepA, exStepB, exStepC]

/-- C3: for every step sequence of length N the builder yields exactly N
nodes (node k has id `step-{k}` at x = 250, y = k*100+50) and N−1 edges
(edge k, for k+1 < N, has id `edge-{k+1}`, source `step-{k}`, target
`step-{k+1}`); no edge targets `step-0`; and the empty sequence yields two
empty lists with no error. -/
theorem flow_chain_invariant (sel : Option Nat) (steps : List Step) :
    ((updateFlow sel steps).1).length = steps.length ∧
    ((updateFlow sel steps).2).length = steps.length - 1 ∧
    (∀ (k : Nat) (step : Step), steps[k]? = some step →
      ((updateFlow sel steps).1)[k]? = some (mkFlowNode sel k step) ∧
      (mkFlowNode sel k step).id = "step-" ++ toString k ∧
      (mkFlowNode sel k step).position = ⟨250, k * 100 + 50⟩) ∧
    (∀ (k : Nat) (step : Step), steps[k + 1]? = some step →
      ((updateFlow sel steps).2)[k]? = some (mkFlowEdge (k + 1) step) ∧
      (mkFlowEdge (k + 1) step).id = "edge-" ++ toString (k + 1) ∧
      (mkFlowEdge (k + 1) step).source = "step-" ++ toString k ∧
      (mkFlowEdge (k + 1) step).target = "step-" ++ toString (k + 1)) ∧
    (∀ (k : Nat) (e : FlowEdge), ((updateFlow sel steps).2)[k]? = some e → e.target ≠ "step-0") ∧
    updateFlow sel [] = ([], []) := by
  refine ⟨updateFlow_nodes_length sel steps, updateFlow_edges_length sel steps, ?_, ?_, ?_, rfl⟩
  · intro k step h
    refine ⟨?_, rfl, rfl⟩
    rw [updateFlow_nodes_getElem?, h]
    rfl
  · intro k step h
    refine ⟨?_, rfl, rfl, rfl⟩
    rw [updateFlow_edges_getElem?, h]
    rfl
  · intro k e h
    rw [updateFlow_edges_getElem?] at h
    cases hstep : steps[k + 1]? with
    | none => rw [hstep] at h; simp at h
    | some step =>
      rw [hstep] at h
      simp only [Option.map_some', Option.some.injEq] at h
      rw [← h]
      exact step_id_pos_ne_step0 k

theorem flow_chain_invariant_witness :
    ((updateFlow (some 1) exSteps).1).length = 3 ∧
    ((updateFlow (some 1) exSteps).2).length = 2 ∧
    ((updateFlow (some 1) exSteps).1)[0]? = some (mkFlowNode (some 1) 0 exStepA) ∧
    ((updateFlow (some 1) exSteps).2)[0]? = some (mkFlowEdge 1 exStepB) ∧
    (mkFlowEdge 1 exStepB).target ≠ "step-0" := by
  have h := flow_chain_invariant (some 1) exSteps
  exact ⟨h.1.trans rfl, h.2.1.trans rfl, (h.2.2.1 0 exStepA rfl).1,
    (h.2.2.2.1 0 exStepB rfl).1,
    h.2.2.2.2.1 0 (mkFlowEdge 1 exStepB) (h.2.2.2.1 0 exStepB rfl).1⟩

/-- C4: the node color is an exact, case-sensitive match on the status
string: `error` ↦ `#ef4444` (red), `warning` ↦ `#f59e0b` (amber),
`partial` ↦ `#3b82f6` (blue), everything else — including an absent status,
which defaults to `success` — ↦ `#10b981` (green); and the builder's node
style is built from exactly that color. -/
theorem status_color_exactness :
    nodeColorOf "error" = "#ef4444" ∧
    nodeColorOf "warning" = "#f59e0b" ∧
    nodeColorOf "partial" = "#3b82f6" ∧
    nodeColorOf "success" = "#10b981" ∧
    (∀ s : String, s ≠ "error" → s ≠ "warning" → s ≠ "partial" →
      nodeColorOf s = "#10b981") ∧
    (∀ step : Step, step.status = none → statusOf step = "success") ∧
    nodeColorOf "Error" = "#10b981" ∧
    nodeColorOf "ERROR" = "#10b981" ∧
    (∀ (sel : Option Nat) (i : Nat) (step : Step),
      (mkFlowNode sel i step).style =
        getNodeStyle (statusOf step) (nodeColorOf (statusOf step)) (sel == some i)) := by
  refine ⟨rfl, by decide, by decide, by decide, ?_, ?_, by decide, by decide, fun _ _ _ => rfl⟩
  · intro s h1 h2 h3
    simp [nodeColorOf, h1, h2, h3]
  · intro step h
    simp [statusOf, h]

theorem status_color_exactness_witness :
    nodeColorOf "unknown-garbage" = "#10b981" ∧ statusOf exStepC = "success" :=
  ⟨status_color_exactness.2.2.2.2.1 "unknown-garbage" (by decide) (by decide) (by decide),
   status_color_exactness.2.2.2.2.2.1 exStepC rfl⟩

/-- C5: the k-th produced edge (which is `edge-{k+1}`) draws both its stroke
and its arrow-marker color from the status-color of the target step at index
k+1, not from the source step at index k. -/
theorem edge_color_from_target (sel : Option Nat) (steps : List Step) (k : Nat)
    (step : Step) (h : steps[k + 1]? = some step) :
    ((updateFlow sel steps).2)[k]? = some (mkFlowEdge (k + 1) step) ∧
    (mkFlowEdge (k + 1) step).style.stroke = nodeColorOf (statusOf step) ++ "60" ∧
    (mkFlowEdge (k + 1) step).markerEnd.color = nodeColorOf (statusOf step) ++ "60" := by
  refine ⟨?_, rfl, rfl⟩
  rw [updateFlow_edges_getElem?, h]
  rfl

theorem edge_color_from_target_witness :
    (((updateFlow (some 1) exSteps).2)[0]? = some (mkFlowEdge 1 exStepB) ∧
      (mkFlowEdge 1 exStepB).style.stroke = nodeColorOf (statusOf exStepB) ++ "60" ∧
      (mkFlowEdge 1 exStepB).markerEnd.color = nodeColorOf (statusOf exStepB) ++ "60") ∧
    nodeColorOf (statusOf exStepB) ++ "60" = "#ef444460" ∧
    nodeColorOf (statusOf exStepA) ++ "60" = "#10b98160" :=
  ⟨edge_color_from_target (some 1) exSteps 0 exStepB rfl, by decide, by decide⟩

/-- C9: the builder is deterministic — identical step sequence and identical
selected index give identical output — and two builds of the same step
sequence that differ only in the selected index have identical edges, the
same number of nodes, and nodes identical in every structural field and in
every style field except the highlight-dependent `border` and `boxShadow`. -/
theorem updateFlow_structural_determinism (steps : List Step) (sel sel2 : Option Nat) :
    updateFlow sel steps = updateFlow sel steps ∧
    (updateFlow sel steps).2 = (updateFlow sel2 steps).2 ∧
    ((updateFlow sel steps).1).length = ((updateFlow sel2 steps).1).length ∧
    (∀ (k : Nat) (n1 n2 : FlowNode), ((updateFlow sel steps).1)[k]? = some n1 →
      ((updateFlow sel2 steps).1)[k]? = some n2 →
      n1.id = n2.id ∧ n1.position = n2.position ∧ n1.data = n2.data ∧
      n1.draggable = n2.draggable ∧
      n1.style.background = n2.style.background ∧
      n1.style.borderRadius = n2.style.borderRadius ∧
      n1.style.padding = n2.style.padding ∧
      n1.style.minWidth = n2.style.minWidth ∧
      n1.style.maxWidth = n2.style.maxWidth ∧
      n1.style.color = n2.style.color ∧
      n1.style.cursor = n2.style.cursor ∧
      n1.style.fontSize = n2.style.fontSize ∧
      n1.style.fontWeight = n2.style.fontWeight) := by
  refine ⟨rfl, updateFlowAux_snd_sel_independent sel sel2 steps 0, ?_, ?_⟩
  · rw [updateFlow_nodes_length, updateFlow_nodes_length]
  · intro k n1 n2 h1 h2
    rw [updateFlow_nodes_getElem?] at h1 h2
    cases hstep : steps[k]? with
    | none => rw [hstep] at h1; simp at h1
    | some step =>
      rw [hstep] at h1 h2
      simp only [Option.map_some', Option.some.injEq] at h1 h2
      subst h1
      subst h2
      exact ⟨rfl, rfl, rfl, rfl, rfl, rfl, rfl, rfl, rfl, rfl, rfl, rfl, rfl⟩

theorem updateFlow_structural_determinism_witness :
    (updateFlow (some 1) exSteps).2 = (updateFlow none exSteps).2 ∧
    (mkFlowNode (some 1) 1 exStepB).id = (mkFlowNode none 1 exStepB).id ∧
    (mkFlowNode (some 1) 1 exStepB).style.background
      = (mkFlowNode none 1 exStepB).style.background := by
  have h := updateFlow_structural_determinism exSteps (some 1) none
  have h4 := h.2.2.2 1 (mkFlowNode (some 1) 1 exStepB) (mkFlowNode none 1 exStepB)
    (by rfl) (by rfl)
  exact ⟨h.2.1, h4.1, h4.2.2.2.2.1⟩

/-!
### Adaptive poller, event-loop model

For the teardown and failure-tolerance properties, the hook is embedded with
its timer environment made explicit.  JavaScript's event loop is
single-threaded: each transition below is one uninterrupted synchronous
block.  `intervalRef` holds whatever id was last assigned (the effect
cleanup clears the timer but never nulls the ref, exactly as in the source);
`timers` holds the currently armed `setInterval` timers with their periods;
`inflight` holds the `previousCount` captured by each `poll` invocation that
is suspended at `await fetchTraces()`; `fetchCalls` counts invocations of
the caller-supplied fetch operation.
-/

structure TimerWorld where
  lastTraceCount : Nat
  consecutiveNoChange : Nat
  intervalRef : Option Nat
  timers : List (Nat × ℚ)
  nextId : Nat
  inflight : List Nat
  fetchCalls : Nat
deriving Repr, DecidableEq

/-- Start of `poll()`: capture `previousCount = lastTraceCountRef.current`
and invoke `fetchTraces()` (now in flight). -/
def startPoll (w : TimerWorld) : TimerWorld :=
  { w with fetchCalls := w.fetchCalls + 1, inflight := w.inflight ++ [w.lastTraceCount] }

/-- Browser `clearInterval(id)`: disarm that timer; ids are never reused. -/
def clearTimer (id : Nat) (w : TimerWorld) : TimerWorld :=
  { w with timers := w.timers.filter (fun t => t.1 != id) }

/-- Browser `setInterval(poll, period)`: arm a fresh timer and return its id. -/
def setTimer (period : ℚ) (w : TimerWorld) : Nat × TimerWorld :=
  (w.nextId, { w with timers := w.timers ++ [(w.nextId, period)], nextId := w.nextId + 1 })

/-- A timer firing: if still armed it runs its callback `poll`, which starts
a fetch; firing a cleared timer does nothing. -/
def fireTimer (id : Nat) (w : TimerWorld) : TimerWorld :=
  if w.timers.any (fun t => t.1 == id) then startPoll w else w

/-- Effect body of `useTracePolling` with `enabled = true`: call `poll()`
(which suspends at the await) and then `intervalRef.current =
setInterval(poll, 10000)`. -/
def mountPolling (w : TimerWorld) : TimerWorld :=
  let w1 := startPoll w
  let p := setTimer 10000 w1
  { p.2 with intervalRef := some p.1 }

/-- Effect cleanup of `useTracePolling` (run on disable or unmount):
`if (intervalRef.current) clearInterval(intervalRef.current)`.  The ref is
left holding the cleared id — the source never nulls it. -/
def cleanupPolling (w : TimerWorld) : TimerWorld :=
  match w.intervalRef with
  | some id => clearTimer id w
  | none => w

/-- Resumption of a `poll` whose `fetchTraces()` settled successfully, with
`currentCount` the measured `querySelectorAll` count: the block after the
await runs against the current refs, rearming through whatever id
`intervalRef.current` still holds. -/
def resumeOk (previousCount currentCount : Nat) (w : TimerWorld) : TimerWorld :=
  let w0 := { w with inflight := w.inflight.erase previousCount }
  if currentCount = previousCount then
    let c := w0.consecutiveNoChange + 1
    let w1 := { w0 with consecutiveNoChange := c }
    let w2 :=
      if 3 < c then
        match w1.intervalRef with
        | some id =>
          let w' := clearTimer id w1
          let p := setTimer (min 30000 (10000 * (1 + (c : ℚ) / 3))) w'
          { p.2 with intervalRef := some p.1 }
        | none => w1
      else w1
    { w2 with lastTraceCount := currentCount }
  else
    let w1 := { w0 with consecutiveNoChange := 0 }
    let w2 :=
      match w1.intervalRef with
      | some id =>
        let w' := clearTimer id w1
        let p := setTimer 10000 w'
        { p.2 with intervalRef := some p.1 }
      | none => w1
    { w2 with lastTraceCount := currentCount }

/-- Resumption of a `poll` whose `fetchTraces()` rejected: `poll` has no
try/catch, so the rest of the block is skipped and the rejected promise is
discarded by the runtime (`setInterval` and the effect ignore it) — no ref
and no timer changes. -/
def resumeFail (previousCount : Nat) (w : TimerWorld) : TimerWorld :=
  { w with inflight := w.inflight.erase previousCount }

/-- World before the hook's effect has run. -/
def initWorld : TimerWorld :=
  { lastTraceCount := 0, consecutiveNoChange := 0, intervalRef := none,
    timers := [], nextId := 0, inflight := [], fetchCalls := 0 }

/-- C6 (bug demonstration): mount the poller with its initial fetch in
flight, tear it down (the armed timer is cleared, one fetch has run), and
let the in-flight fetch complete with a changed count.  Because the cleanup
never nulls `intervalRef`, the resumed callback re-arms a fresh 10000 ms
interval after deactivation, and that timer's fire runs a further fetch:
`fetchCalls` rises from 1 to 2 after teardown, contradicting the zero
further-invocations guarantee. -/
theorem teardown_leak_demo :
    (cleanupPolling (mountPolling initWorld)).timers = [] ∧
    (cleanupPolling (mountPolling initWorld)).fetchCalls = 1 ∧
    (resumeOk 0 1 (cleanupPolling (mountPolling initWorld))).timers = [(1, 10000)] ∧
    (fireTimer 1 (resumeOk 0 1 (cleanupPolling (mountPolling initWorld)))).fetchCalls = 2 :=
  ⟨rfl, rfl, rfl, rfl⟩

/-- C7: a poll cycle whose fetch rejects leaves every ref, the armed timer
set and the fetch count untouched — the failure is discarded by the runtime
and the armed schedule continues: a later fire of any still-armed timer
invokes the fetch operation exactly as before. -/
theorem poll_failure_keeps_schedule (w : TimerWorld) (previousCount : Nat) :
    (resumeFail previousCount w).lastTraceCount = w.lastTraceCount ∧
    (resumeFail previousCount w).consecutiveNoChange = w.consecutiveNoChange ∧
    (resumeFail previousCount w).intervalRef = w.intervalRef ∧
    (resumeFail previousCount w).timers = w.timers ∧
    (resumeFail previousCount w).fetchCalls = w.fetchCalls ∧
    (∀ id : Nat, (w.timers.any (fun t => t.1 == id)) = true →
      (fireTimer id (resumeFail previousCount w)).fetchCalls = w.fetchCalls + 1) := by
  refine ⟨rfl, rfl, rfl, rfl, rfl, ?_⟩
  intro id h
  simp [fireTimer, resumeFail, startPoll, h]

/-- Sample active world: one armed 10000 ms timer (id 0) and one in-flight
fetch that captured a previous count of 3. -/
def exWorld : TimerWorld :=
  { lastTraceCount := 3, consecutiveNoChange := 2, intervalRef := some 0,
    timers := [(0, 10000)], nextId := 1, inflight := [3], fetchCalls := 7 }

theorem poll_failure_keeps_schedule_witness :
    (resumeFail 3 exWorld).timers = exWorld.timers ∧
    (fireTimer 0 (resumeFail 3 exWorld)).fetchCalls = exWorld.fetchCalls + 1 := by
  have h := poll_failure_keeps_schedule exWorld 3
  exact ⟨h.2.2.2.1, h.2.2.2.2.2 0 (by decide)⟩

/-!
### Trace list rendering and the poller's change-signal measurement

`useTracePolling` measures its change signal as
`document.querySelectorAll('[data-trace-id]')?.length || 0`.  The rendered
document is modelled as the flattened, document-ordered list of elements
(which is exactly what `querySelectorAll` traverses), each carrying its tag
and the names of the attributes/props written in the JSX of
`TraceList.jsx`; text content is irrelevant to an attribute query and is
omitted. -/

structure TraceSummary where
  trace_id : String
  name : String
  status : String
  step_count : Option Nat
  created_at : Option String
deriving Repr, DecidableEq

structure DomElem where
  tag : String
  attrs : List String
deriving Repr, DecidableEq

/-- Root element of one rendered trace entry: the clickable card `div` in
`TraceList.jsx` has exactly a `key`, an `onClick` and a `className` — no
`data-trace-id` (nor any other `data-` attribute); the `t` parameter feeds
only the rendered text, which an attribute query never sees. -/
def traceEntryRoot (_t : TraceSummary) : DomElem :=
  { tag := "div", attrs := ["key", "onClick", "className"] }

/-- Flattened descendants of one rendered trace entry (name row with badge,
metadata row with two icon spans, trace-id footer), with the attribute
names written in the JSX. -/
def traceEntryElems (t : TraceSummary) : List DomElem :=
  [traceEntryRoot t,
   { tag := "div", attrs := ["className"] },
   { tag := "h3", attrs := ["className"] },
   { tag := "span", attrs := ["className"] },
   { tag := "div", attrs := ["className"] },
   { tag := "span", attrs := ["className"] },
   { tag := "svg", attrs := ["className", "fill", "stroke", "viewBox"] },
   { tag := "path", attrs := ["strokeLinecap", "strokeLinejoin", "strokeWidth", "d"] },
   { tag := "span", attrs := ["className"] },
   { tag := "svg", attrs := ["className", "fill", "stroke", "viewBox"] },
   { tag := "path", attrs := ["strokeLinecap", "strokeLinejoin", "strokeWidth", "d"] },
   { tag := "div", attrs := ["className"] },
   { tag := "code", attrs := ["className"] }]

/-- The entry cards `TraceList` renders: one per trace, none when the list
is empty (the empty state is rendered instead). -/
def renderedTraceEntries (traces : List TraceSummary) : List DomElem :=
  if traces.length = 0 then [] else traces.map traceEntryRoot

/-- Flattened rendering of the `TraceList` component: header, then either
the empty-state placeholder or the per-trace entry cards. -/
def traceListElems (traces : List TraceSummary) : List DomElem :=
  [{ tag := "div", attrs := ["className"] },
   { tag := "div", attrs := ["className"] },
   { tag := "h2", attrs := ["className"] },
   { tag := "p", attrs := ["className"] },
   { tag := "div", attrs := ["className"] }] ++
  (if traces.length = 0 then
    [{ tag := "div", attrs := ["className"] },
     { tag := "div", attrs := ["className"] },
     { tag := "svg", attrs := ["className", "fill", "stroke", "viewBox"] },
     { tag := "path", attrs := ["strokeLinecap", "strokeLinejoin", "strokeWidth", "d"] },
     { tag := "p", attrs := ["className"] },
     { tag := "p", attrs := ["className"] }]
  else
    { tag := "div", attrs := ["className"] } :: (traces.map traceEntryElems).flatten)

/-- Embedding of `document.querySelectorAll('[attr]')?.length || 0`. -/
def querySelectorAllCount (attr : String) (doc : List DomElem) : Nat :=
  (doc.filter (fun e => e.attrs.contains attr)).length

/-- The change signal the poller measures when the document shows the trace
list rendered from `traces`. -/
def changeSignal (traces : List TraceSummary) : Nat :=
  querySelectorAllCount "data-trace-id" (traceListElems traces)

/-- Sample trace summary for the rendered list. -/
def exTrace : TraceSummary :=
  { trace_id := "trace-abc", name := "Demo", status := "completed",
    step_count := some 2, created_at := some "2024-01-01" }

/-- C8 (bug demonstration): with one trace in the list, `TraceList` renders
one entry card, but no rendered element carries a `data-trace-id`
attribute, so the poller's `querySelectorAll('[data-trace-id]')` count — its
change signal — is 0 and differs from the rendered-entry count 1. -/
theorem change_signal_not_rendered_count :
    (renderedTraceEntries [exTrace]).length = 1 ∧
    changeSignal [exTrace] = 0 ∧
    changeSignal [exTrace] ≠ (renderedTraceEntries [exTrace]).length := by
  refine ⟨rfl, rfl, ?_⟩
  decide

/-!
### Trace-detail fetch of the viewer
-/

structure Trace where
  trace_id : String
  name : String
  status : String
  created_at : String
  metadata : List (String × String)
  steps : Option (List Step)
deriving Repr, DecidableEq

/-- Component state of `TraceViewer` touched by `fetchTrace`:
`trace`, and the `nodes`/`edges` produced through `updateFlow` (which closes
over `selectedStep`). -/
structure ViewerState where
  trace : Option Trace
  selectedStep : Option Nat
  nodes : List FlowNode
  edges : List FlowEdge
deriving Repr, DecidableEq

/-- Embedding of `fetchTrace` in `TraceViewer.jsx`.  The argument collapses
the awaited pipeline inside the `try` block (`fetch`, then `res.json()`):
`.ok data` is a successfully fetched and parsed trace, `.error e` a
rejection at either stage.  On success the trace is stored and the flow
rebuilt from `data.steps || []`; the `catch` block only logs the error,
leaving every piece of state untouched, and nothing is re-thrown. -/
def fetchTrace (result : Except String Trace) (s : ViewerState) : ViewerState :=
  match result with
  | .ok data =>
    let pair := updateFlow s.selectedStep (data.steps.getD [])
    { s with trace := some data, nodes := pair.1, edges := pair.2 }
  | .error _ => s

/-- C10: a failing trace-detail fetch (network rejection or JSON parse
failure) is caught inside `fetchTrace` and no exception propagates (the
embedding is a total function); the previously displayed trace and the
current node and edge lists are left exactly unchanged — state is updated
only by a fully successful fetch-and-parse. -/
theorem fetchTrace_error_preserves_state (e : String) (s : ViewerState) :
    fetchTrace (.error e) s = s ∧
    (fetchTrace (.error e) s).trace = s.trace ∧
    (fetchTrace (.error e) s).nodes = s.nodes ∧
    (fetchTrace (.error e) s).edges = s.edges :=
  ⟨rfl, rfl, rfl, rfl⟩

end LTrail
